import Mathlib

set_option maxRecDepth 100000

/-!
Verification development for the Invest dashboard repository (src/app.py).

The development shallowly embeds the core of the program:
the price series loaders (load_data, load_korean_stock_data),
the indicator engine (calculate_indicators), and
the screening engine (screen_stocks_by_market).

Conventions of the embedding:
* a pandas DataFrame of OHLCV rows is a list of bars with rational fields
  (floats are modelled exactly by rationals where only field arithmetic and
  comparisons occur, and by reals inside the indicator engine, where a
  square root appears in the Bollinger computation);
* a Python function that may raise receives its provider response as an
  Except value, and the caught-exception path is the .error branch;
* None results become Option.none;
* per-candidate screening state (results, processed, errors) is threaded
  explicitly through a fold over the universe list.
-/

namespace Invest

/-- One OHLCV row of a normalized price frame: open, high, low, close, volume.
Column order follows the yfinance-style frame used by src/app.py. -/
structure Bar where
  o : ℚ
  h : ℚ
  l : ℚ
  c : ℚ
  v : ℚ
deriving DecidableEq, Repr

/-- A price series: the rows of a DataFrame, in ascending date order. -/
abbrev Series := List Bar

/-- One raw row returned by the pykrx OHLCV provider: the five price columns
plus the daily change-percent column that the loader drops. -/
structure KrxBar where
  o : ℚ
  h : ℚ
  l : ℚ
  c : ℚ
  v : ℚ
  chg : ℚ
deriving DecidableEq, Repr

/-- Column renaming and projection performed by load_korean_stock_data:
keep Open, High, Low, Close, Volume and drop the change-percent column. -/
def krxToBar (b : KrxBar) : Bar :=
  { o := b.o, h := b.h, l := b.l, c := b.c, v := b.v }

/-- Embedding of load_data (src/app.py lines 57-75).  The yfinance call is
modelled by its outcome: .error when the provider call raised (the except
branch returns None), .ok rows otherwise.  The MultiIndex flattening only
renames columns and is absorbed by the Bar representation. -/
def load_data (resp : Except Unit (List Bar)) : Option (List Bar) :=
  match resp with
  | .error _ => none
  | .ok data => if data.isEmpty then none else some data

/-- Embedding of load_korean_stock_data (src/app.py lines 78-119).  The pykrx
call is modelled by its outcome: .error when the call raised, .ok none when it
returned None, .ok (some rows) otherwise.  On success the six pykrx columns
are renamed and the change-percent column is dropped. -/
def load_korean_stock_data (resp : Except Unit (Option (List KrxBar))) :
    Option (List Bar) :=
  match resp with
  | .error _ => none
  | .ok none => none
  | .ok (some df) => if df.isEmpty then none else some (df.map krxToBar)

/-! Helpers for the pandas slicing and aggregation idioms used by the code. -/

/-- Python slice l[-n:]: the last n elements of l. -/
def lastN (n : ℕ) (l : List α) : List α := l.drop (l.length - n)

/-- Python slice l[-a:-b] (for a > b): drop to position len-a, keep a-b elements. -/
def sliceNeg (a b : ℕ) (l : List α) : List α := (l.drop (l.length - a)).take (a - b)

/-- Pandas Series.max over a nonempty rational column. -/
def maxD : List ℚ → ℚ
  | [] => 0
  | x :: xs => xs.foldl max x

/-- Pandas Series.mean: sum divided by length. -/
def mean (l : List ℚ) : ℚ := l.sum / l.length

/-- Pandas iloc[-1]['Close']: the latest close of a series. -/
def lastClose (d : Series) : ℚ := (d.map Bar.c).getLastD 0

/-- The right-aligned window of width w ending at index i:
elements at indices i+1-w .. i (all of them when i+1 < w). -/
def window (w i : ℕ) (xs : List α) : List α := (xs.take (i + 1)).drop (i + 1 - w)

/-- Pandas rolling(w).mean() over a rational column: entry i is null for
i+1 < w, and otherwise the arithmetic mean of the trailing w elements. -/
def rollingMeanQ (w : ℕ) (xs : List ℚ) : List (Option ℚ) :=
  (List.range xs.length).map fun i =>
    if i + 1 < w then none else some ((window w i xs).sum / w)

/-! The indicator engine.  calculate_indicators (src/app.py lines 121-176)
derives the indicator columns from the close, high and low columns.  The
simple moving averages, Bollinger bands and the lagging span follow the code
directly; the columns produced through the external ta library (RSI, MACD,
stochastic, the remaining Ichimoku lines) follow the algorithm statements of
the specification for that library call.  Columns hold Option values: none is
a NaN entry. -/

/-- The close column of a series, as reals (float column). -/
def closesR (d : Series) : List ℝ := d.map fun b => (b.c : ℝ)

/-- The high column of a series, as reals. -/
def highsR (d : Series) : List ℝ := d.map fun b => (b.h : ℝ)

/-- The low column of a series, as reals. -/
def lowsR (d : Series) : List ℝ := d.map fun b => (b.l : ℝ)

/-- Pandas rolling(w).apply: entry i is null for i+1 < w and otherwise the
aggregate f of the trailing window of width w. -/
def rollingApply (w : ℕ) (f : List ℝ → ℝ) (xs : List ℝ) : List (Option ℝ) :=
  (List.range xs.length).map fun i =>
    if i + 1 < w then none else some (f (window w i xs))

/-- Maximum of a nonempty real list (rolling max aggregate). -/
noncomputable def maxR : List ℝ → ℝ
  | [] => 0
  | x :: xs => xs.foldl max x

/-- Minimum of a nonempty real list (rolling min aggregate). -/
noncomputable def minR : List ℝ → ℝ
  | [] => 0
  | x :: xs => xs.foldl min x

/-- Rolling arithmetic mean of width w: the simple moving average columns
MA20, MA50, MA200 (and the Bollinger middle band with w = 18). -/
noncomputable def rollingMean (w : ℕ) (xs : List ℝ) : List (Option ℝ) :=
  rollingApply w (fun l => l.sum / w) xs

/-- Population variance of a window of width w (pandas std with ddof 0,
the convention of the ta Bollinger implementation, squared). -/
noncomputable def popVar (w : ℕ) (l : List ℝ) : ℝ :=
  (l.map fun x => (x - l.sum / w) ^ 2).sum / w

/-- Rolling mean of width w over an already-nullable column, used for the
RSI signal and the stochastic smoothings: null whenever the window is not
yet full or contains a null. -/
noncomputable def rollingMeanO (w : ℕ) (xs : List (Option ℝ)) : List (Option ℝ) :=
  (List.range xs.length).map fun i =>
    let win := window w i xs
    if i + 1 < w then none
    else if win.all Option.isSome then some ((win.filterMap id).sum / w) else none

/-- Exponential moving average with smoothing weight a over a nullable
column: the recursion of pandas ewm with adjust false, starting at the first
non-null observation; entries are null until minp non-null observations have
been seen.  Modelled from the spec (section 4.2): the ta library computes its
EMAs through this pandas call. -/
noncomputable def emaAlpha (a : ℝ) (minp : ℕ) (xs : List (Option ℝ)) :
    List (Option ℝ) :=
  (xs.foldl
    (fun (acc : List (Option ℝ) × Option ℝ × ℕ) x =>
      match x, acc.2.1 with
      | none, _ => (acc.1 ++ [none], acc.2)
      | some v, none =>
        (acc.1 ++ [if 1 < minp then none else some v], some v, 1)
      | some v, some e =>
        let e' := (1 - a) * e + a * v
        let k := acc.2.2 + 1
        (acc.1 ++ [if k < minp then none else some e'], some e', k))
    ([], none, 0)).1

/-- Exponential moving average by span (pandas ewm span, adjust false,
min periods equal to the span), as used for the MACD lines. -/
noncomputable def emaSpan (span : ℕ) (xs : List (Option ℝ)) : List (Option ℝ) :=
  emaAlpha (2 / (span + 1)) span xs

/-- Pointwise combination of two nullable columns (pandas column arithmetic:
null if either operand is null). -/
def zipO (f : ℝ → ℝ → ℝ) (a b : List (Option ℝ)) : List (Option ℝ) :=
  List.zipWith
    (fun x y =>
      match x, y with
      | some u, some v => some (f u v)
      | _, _ => none)
    a b

/-- One-period differences of the close column: null at index 0. -/
noncomputable def diffO (xs : List ℝ) : List (Option ℝ) :=
  match xs with
  | [] => []
  | _ :: t => none :: List.zipWith (fun a b => some (b - a)) xs t

/-- Wilder RSI value from an average gain and an average loss; an average
loss of zero gives 100 (section 4.2 edge case). -/
noncomputable def rsiVal (g l : ℝ) : ℝ :=
  if l = 0 then 100 else 100 - 100 / (1 + g / l)

/-- The RSI(14) column.  Modelled from the spec (section 4.2): Wilder
smoothing of gains and losses with weight 1/14, 14 observations required. -/
noncomputable def rsiCol (cs : List ℝ) : List (Option ℝ) :=
  let d := diffO cs
  let g := emaAlpha (1 / 14) 14 (d.map (Option.map fun x => max x 0))
  let l := emaAlpha (1 / 14) 14 (d.map (Option.map fun x => max (-x) 0))
  zipO rsiVal g l

/-- Donchian midline of width w at index i: the mean of the highest high and
the lowest low over the trailing w bars (the Ichimoku line constructions). -/
noncomputable def donchianMid (w i : ℕ) (hs ls : List ℝ) : ℝ :=
  (maxR (window w i hs) + minR (window w i ls)) / 2

/-- A Donchian midline column of width w: null while the window is short. -/
noncomputable def donchianCol (w : ℕ) (hs ls : List ℝ) : List (Option ℝ) :=
  (List.range hs.length).map fun i =>
    if i + 1 < w then none else some (donchianMid w i hs ls)

/-- Ichimoku span A: mean of conversion and base lines, aligned to the
current bar (no forward displacement, per the code and the spec note). -/
noncomputable def ichimokuACol (hs ls : List ℝ) : List (Option ℝ) :=
  (List.range hs.length).map fun i =>
    if i + 1 < 26 then none
    else some ((donchianMid 9 i hs ls + donchianMid 26 i hs ls) / 2)

/-- Raw stochastic %K(10): 100 (close - lowest low) / (highest high -
lowest low) over the trailing 10 bars.  Modelled from the spec (4.2). -/
noncomputable def rawStoch (hs ls cs : List ℝ) : List (Option ℝ) :=
  (List.range cs.length).map fun i =>
    if i + 1 < 10 then none
    else
      some (100 * (cs.getD i 0 - minR (window 10 i ls)) /
        (maxR (window 10 i hs) - minR (window 10 i ls)))

/-- Backward shift by k (pandas shift(-k)): entry i holds element i+k of the
input, and the last k entries (all entries, for lists shorter than k) are
null.  This is the Ichimoku lagging span construction of the code. -/
def shiftNeg (k : ℕ) (xs : List α) : List (Option α) :=
  (xs.drop k).map some ++ List.replicate (min k xs.length) none

/-- The Bollinger upper band column: 18-period mean plus two 18-period
population standard deviations, over the same trailing window. -/
noncomputable def bbUpperCol (cs : List ℝ) : List (Option ℝ) :=
  rollingApply 18 (fun l => l.sum / 18 + 2 * Real.sqrt (popVar 18 l)) cs

/-- The Bollinger lower band column: 18-period mean minus two 18-period
population standard deviations, over the same trailing window. -/
noncomputable def bbLowerCol (cs : List ℝ) : List (Option ℝ) :=
  rollingApply 18 (fun l => l.sum / 18 - 2 * Real.sqrt (popVar 18 l)) cs

/-- The derived frame produced by calculate_indicators: the copied input
rows together with every indicator column the function assigns. -/
structure Frame where
  bars : Series
  ma20 : List (Option ℝ)
  ma50 : List (Option ℝ)
  ma200 : List (Option ℝ)
  rsi : List (Option ℝ)
  rsiSignal : List (Option ℝ)
  macd : List (Option ℝ)
  macdSignal : List (Option ℝ)
  macdHist : List (Option ℝ)
  bbUpper : List (Option ℝ)
  bbMiddle : List (Option ℝ)
  bbLower : List (Option ℝ)
  stochK : List (Option ℝ)
  stochD : List (Option ℝ)
  ichiConv : List (Option ℝ)
  ichiBase : List (Option ℝ)
  ichiA : List (Option ℝ)
  ichiB : List (Option ℝ)
  ichiLagging : List (Option ℝ)

/-- Embedding of calculate_indicators (src/app.py lines 121-176).  The
function copies its input frame (df = data.copy()) and assigns indicator
columns to the copy only; the pair returned here is the caller's series as
it stands after the call together with the returned frame, so the first
component being the unchanged input is exactly the absence of the aliasing
side effect. -/
noncomputable def calculate_indicators (data : Series) : Series × Frame :=
  let df := data
  let cs := closesR df
  let hs := highsR df
  let ls := lowsR df
  let macdLine := zipO (fun a b => a - b) (emaSpan 12 (cs.map some))
    (emaSpan 26 (cs.map some))
  let macdSig := emaSpan 9 macdLine
  let rsiC := rsiCol cs
  let stochRaw := rawStoch hs ls cs
  let stochKC := rollingMeanO 6 stochRaw
  (data,
    { bars := df
      ma20 := rollingMean 20 cs
      ma50 := rollingMean 50 cs
      ma200 := rollingMean 200 cs
      rsi := rsiC
      rsiSignal := rollingMeanO 6 rsiC
      macd := macdLine
      macdSignal := macdSig
      macdHist := zipO (fun a b => a - b) macdLine macdSig
      bbUpper := bbUpperCol cs
      bbMiddle := rollingMean 18 cs
      bbLower := bbLowerCol cs
      stochK := stochKC
      stochD := rollingMeanO 6 stochKC
      ichiConv := donchianCol 9 hs ls
      ichiBase := donchianCol 26 hs ls
      ichiA := ichimokuACol hs ls
      ichiB := donchianCol 52 hs ls
      ichiLagging := shiftNeg 26 cs })

/-! The screening engine: screen_stocks_by_market (src/app.py lines 586-753).
The universe is the (name, symbol) list the function iterates; the data
provider is the behaviour of load_korean_stock_data as a function from
ticker code and period to an optional series, and the fundamentals lookup
get_operating_income_change is a function from ticker code to an optional
EPS change (it returns None on any failure).  Progress display is ignored. -/

/-- The two lookback periods the screening loop requests. -/
inductive Period
  | p1mo
  | p3mo
deriving DecidableEq, Repr

/-- The per-run provider behaviour: what load_korean_stock_data returns for
a ticker code and period during this screening pass. -/
abbrev Fetch := String → Period → Option Series

/-- The fundamentals lookup behaviour of get_operating_income_change. -/
abbrev EpsFn := String → Option ℚ

/-- Removal of every occurrence of a three-character pattern, scanning left
to right (Python str.replace with an empty replacement, for the
three-character suffix patterns the code uses). -/
def removeAll3 (p1 p2 p3 : Char) : List Char → List Char
  | a :: b :: c :: rest =>
    if a = p1 ∧ b = p2 ∧ c = p3 then removeAll3 p1 p2 p3 rest
    else a :: removeAll3 p1 p2 p3 (b :: c :: rest)
  | cs => cs

/-- The ticker-code extraction of the loop body:
symbol.replace of the KS suffix then of the KQ suffix. -/
def tickerCode (s : String) : String :=
  ⟨removeAll3 '.' 'K' 'Q' (removeAll3 '.' 'K' 'S' s.data)⟩

/-- The first-stage filter predicate: the latest close is at least 98
percent of the highest high over the trailing 20 bars. -/
def newHigh (d : Series) : Bool :=
  lastClose d ≥ maxD (lastN 20 (d.map Bar.h)) * (98 / 100)

/-- The second-stage filter predicate: the mean volume of the last 5 bars
exceeds 1.2 times the mean volume of the bars at positions -15 to -6. -/
def volumeSurge (d : Series) : Bool :=
  mean (lastN 5 (d.map Bar.v)) > mean (sliceNeg 15 5 (d.map Bar.v)) * (6 / 5)

/-- The volume-increase percentage stored with a qualifying candidate. -/
def volPctOf (d : Series) : ℚ :=
  let recent := mean (lastN 5 (d.map Bar.v))
  let prev := mean (sliceNeg 15 5 (d.map Bar.v))
  (recent - prev) / prev * 100

/-- One qualifying stock as appended by the loop: the tuple
(name, symbol, frame with MA60, latest row, volume increase, EPS change).
The latest-row element of the tuple is the last row of the stored frame and
is not duplicated here. -/
structure Candidate where
  name : String
  symbol : String
  frame : Frame
  ma60 : List (Option ℚ)
  volPct : ℚ
  epsChange : Option ℚ

/-- The loop state of the screening pass. -/
structure ScreenState where
  results : List Candidate := []
  processed : ℕ := 0
  errors : ℕ := 0

/-- One iteration of the screening loop (src/app.py lines 678-743) for a
(name, symbol) universe entry.  A failed or short one-month fetch counts an
error without counting the symbol as processed; a symbol that reaches the
filters is counted as processed whether or not it qualifies; a candidate is
appended only when the new-high, volume-surge and 60-day-line stages all
pass. -/
noncomputable def processSymbol (fetch : Fetch) (eps : EpsFn)
    (st : ScreenState) (entry : String × String) : ScreenState :=
  let name := entry.1
  let symbol := entry.2
  let code := tickerCode symbol
  match fetch code .p1mo with
  | none => { st with errors := st.errors + 1 }
  | some data =>
    if data = [] ∨ data.length < 20 then { st with errors := st.errors + 1 }
    else if ¬ newHigh data then { st with processed := st.processed + 1 }
    else if ¬ volumeSurge data then { st with processed := st.processed + 1 }
    else
      let st' : ScreenState :=
        match fetch code .p3mo with
        | some data3 =>
          if data3 ≠ [] ∧ 60 ≤ data3.length then
            let ma60col := rollingMeanQ 60 (data3.map Bar.c)
            match ma60col.getLastD none with
            | some m =>
              if lastClose data3 > m then
                { st with
                  results := st.results ++
                    [{ name := name
                       symbol := symbol
                       frame := (calculate_indicators data3).2
                       ma60 := ma60col
                       volPct := volPctOf data
                       epsChange := eps code }] }
              else st
            | none => st
          else st
        | none => st
      { st' with processed := st'.processed + 1 }

/-- The collection phase of the screening pass: the loop over the universe,
before the final ranking sort. -/
noncomputable def collectCandidates (fetch : Fetch) (eps : EpsFn)
    (univ : List (String × String)) : ScreenState :=
  univ.foldl (processSymbol fetch eps) {}

/-- Stable descending insertion by the volume-increase key: the element is
placed before the first list element whose key is not larger, so earlier
elements stay ahead of later elements with an equal key. -/
def insertByKey (c : Candidate) : List Candidate → List Candidate
  | [] => [c]
  | d :: ds => if c.volPct < d.volPct then d :: insertByKey c ds else c :: d :: ds

/-- The final ranking sort of the result list
(new_high_stocks.sort by the volume key, reverse): a stable sort,
descending by the volume-increase percentage. -/
def sortByVolPct (l : List Candidate) : List Candidate :=
  l.foldr insertByKey []

/-- Embedding of screen_stocks_by_market (src/app.py lines 586-753) after
universe acquisition: the loop over the universe followed by the descending
stable sort of the qualifiers by volume-increase percentage.  It returns the
final loop state: the ranked result list and the processed and error
counters the function reports. -/
noncomputable def screen_stocks_by_market (fetch : Fetch) (eps : EpsFn)
    (univ : List (String × String)) : ScreenState :=
  let st := collectCandidates fetch eps univ
  { st with results := sortByVolPct st.results }

/-! General lemmas about the slicing and rolling helpers. -/

theorem length_lastN (n : ℕ) (l : List α) (h : n ≤ l.length) :
    (lastN n l).length = n := by
  simp [lastN]
  omega

theorem length_window (w i : ℕ) (xs : List α) (hw : w ≤ i + 1)
    (hi : i < xs.length) : (window w i xs).length = w := by
  simp only [window, List.length_drop, List.length_take]
  omega

theorem window_last (w : ℕ) (xs : List α) (hw : 0 < w) (h : w ≤ xs.length) :
    window w (xs.length - 1) xs = lastN w xs := by
  have h0 : xs.length - 1 + 1 = xs.length := by
    cases xs with
    | nil => simp at h; omega
    | cons a t => simp
  simp [window, lastN, h0]

theorem getElem?_rollingApply (w : ℕ) (f : List ℝ → ℝ) (xs : List ℝ) (i : ℕ)
    (h : i < xs.length) :
    (rollingApply w f xs)[i]? =
      some (if i + 1 < w then none else some (f (window w i xs))) := by
  simp [rollingApply, List.getElem?_map, List.getElem?_range, h]

theorem getElem?_rollingMeanQ (w : ℕ) (xs : List ℚ) (i : ℕ)
    (h : i < xs.length) :
    (rollingMeanQ w xs)[i]? =
      some (if i + 1 < w then none else some ((window w i xs).sum / w)) := by
  simp [rollingMeanQ, List.getElem?_map, List.getElem?_range, h]

theorem length_rollingMeanQ (w : ℕ) (xs : List ℚ) :
    (rollingMeanQ w xs).length = xs.length := by
  simp [rollingMeanQ]

theorem rollingMeanQ_getLastD (w : ℕ) (xs : List ℚ) (hw : 0 < w)
    (h : w ≤ xs.length) :
    (rollingMeanQ w xs).getLastD none = some ((lastN w xs).sum / w) := by
  have hlen : (rollingMeanQ w xs).length = xs.length := length_rollingMeanQ w xs
  have hx : 0 < xs.length := lt_of_lt_of_le hw h
  have hne : rollingMeanQ w xs ≠ [] := by
    intro hnil
    rw [hnil] at hlen
    simp at hlen
    omega
  rw [List.getLastD_eq_getLast?, List.getLast?_eq_getElem?]
  rw [hlen, getElem?_rollingMeanQ w xs (xs.length - 1) (by omega)]
  have hcond : ¬ (xs.length - 1 + 1 < w) := by omega
  rw [if_neg hcond, window_last w xs hw h]
  rfl

theorem lastN_sum_div_eq_mean (w : ℕ) (xs : List ℚ)
    (h : w ≤ xs.length) : (lastN w xs).sum / (w : ℚ) = mean (lastN w xs) := by
  rw [mean, length_lastN w xs h]

/-- The code's volume slice [-15:-5] coincides, for a series of at least 20
bars, with the last 10 elements of the list with its final 5 removed: the 10
bars immediately preceding the most recent 5. -/
theorem sliceNeg_eq_lastN_dropLast (l : List ℚ) (h : 20 ≤ l.length) :
    sliceNeg 15 5 l = lastN 10 (l.take (l.length - 5)) := by
  apply List.ext_getElem
  · simp [sliceNeg, lastN]
    omega
  · intro i h1 h2
    simp only [sliceNeg, lastN, List.length_take, List.length_drop] at h1 h2
    simp only [sliceNeg, lastN, List.getElem_take, List.getElem_drop]
    congr 1
    simp only [List.length_take, List.length_drop]
    omega

theorem shiftNeg_getElem?_lt {α : Type} (k i : ℕ) (xs : List α) (d : α)
    (h : i + k < xs.length) :
    (shiftNeg k xs)[i]? = some (some (xs.getD (i + k) d)) := by
  have hlt : i < (xs.drop k).length := by simp; omega
  rw [shiftNeg, List.getElem?_append_left (by simpa using hlt)]
  rw [List.getElem?_map]
  rw [List.getElem?_drop]
  rw [List.getElem?_eq_getElem (by omega)]
  rw [List.getD_eq_getElem?_getD, List.getElem?_eq_getElem (show i + k < xs.length from h)]
  simp [Nat.add_comm i k]

theorem shiftNeg_getElem?_ge {α : Type} (k i : ℕ) (xs : List α)
    (h1 : xs.length ≤ i + k) (h2 : i < xs.length) :
    (shiftNeg k xs)[i]? = some none := by
  have hdl : (xs.drop k).length = xs.length - k := by simp
  have hge : ((xs.drop k).map some).length ≤ i := by simp; omega
  rw [shiftNeg, List.getElem?_append_right hge]
  rw [List.getElem?_replicate]
  have hlt : i - ((xs.drop k).map some).length < min k xs.length := by
    simp only [List.length_map, List.length_drop]
    omega
  rw [if_pos hlt]

theorem length_shiftNeg {α : Type} (k : ℕ) (xs : List α) :
    (shiftNeg k xs).length = xs.length := by
  simp [shiftNeg]
  omega

/-! Step lemmas: the behaviour of one screening-loop iteration in each of
the disjoint cases of the loop body. -/

/-- The candidate record appended when every filter passes. -/
noncomputable def acceptedCandidate (eps : EpsFn)
    (entry : String × String) (data data3 : Series) : Candidate :=
  { name := entry.1
    symbol := entry.2
    frame := (calculate_indicators data3).2
    ma60 := rollingMeanQ 60 (data3.map Bar.c)
    volPct := volPctOf data
    epsChange := eps (tickerCode entry.2) }

theorem processSymbol_fetch_none (fetch : Fetch) (eps : EpsFn)
    (st : ScreenState) (entry : String × String)
    (h : fetch (tickerCode entry.2) .p1mo = none) :
    processSymbol fetch eps st entry = { st with errors := st.errors + 1 } := by
  simp only [processSymbol, h]

theorem processSymbol_short (fetch : Fetch) (eps : EpsFn)
    (st : ScreenState) (entry : String × String) (d : Series)
    (h : fetch (tickerCode entry.2) .p1mo = some d)
    (hs : d = [] ∨ d.length < 20) :
    processSymbol fetch eps st entry = { st with errors := st.errors + 1 } := by
  simp only [processSymbol, h]
  rw [if_pos hs]

theorem processSymbol_newHigh_fail (fetch : Fetch) (eps : EpsFn)
    (st : ScreenState) (entry : String × String) (d : Series)
    (h : fetch (tickerCode entry.2) .p1mo = some d)
    (hs : ¬ (d = [] ∨ d.length < 20)) (hn : newHigh d = false) :
    processSymbol fetch eps st entry =
      { st with processed := st.processed + 1 } := by
  simp only [processSymbol, h]
  rw [if_neg hs, if_pos (by simp [hn])]

theorem processSymbol_volume_fail (fetch : Fetch) (eps : EpsFn)
    (st : ScreenState) (entry : String × String) (d : Series)
    (h : fetch (tickerCode entry.2) .p1mo = some d)
    (hs : ¬ (d = [] ∨ d.length < 20)) (hn : newHigh d = true)
    (hv : volumeSurge d = false) :
    processSymbol fetch eps st entry =
      { st with processed := st.processed + 1 } := by
  simp only [processSymbol, h]
  rw [if_neg hs, if_neg (by simp [hn]), if_pos (by simp [hv])]

theorem processSymbol_trend_fetch_none (fetch : Fetch) (eps : EpsFn)
    (st : ScreenState) (entry : String × String) (d : Series)
    (h : fetch (tickerCode entry.2) .p1mo = some d)
    (hs : ¬ (d = [] ∨ d.length < 20)) (hn : newHigh d = true)
    (hv : volumeSurge d = true)
    (h3 : fetch (tickerCode entry.2) .p3mo = none) :
    processSymbol fetch eps st entry =
      { st with processed := st.processed + 1 } := by
  simp only [processSymbol, h, h3]
  rw [if_neg hs, if_neg (by simp [hn]), if_neg (by simp [hv])]

theorem processSymbol_trend_short (fetch : Fetch) (eps : EpsFn)
    (st : ScreenState) (entry : String × String) (d d3 : Series)
    (h : fetch (tickerCode entry.2) .p1mo = some d)
    (hs : ¬ (d = [] ∨ d.length < 20)) (hn : newHigh d = true)
    (hv : volumeSurge d = true)
    (h3 : fetch (tickerCode entry.2) .p3mo = some d3)
    (h3s : ¬ (d3 ≠ [] ∧ 60 ≤ d3.length)) :
    processSymbol fetch eps st entry =
      { st with processed := st.processed + 1 } := by
  simp only [processSymbol, h, h3]
  rw [if_neg hs, if_neg (by simp [hn]), if_neg (by simp [hv]), if_neg h3s]

theorem processSymbol_trend_ma_none (fetch : Fetch) (eps : EpsFn)
    (st : ScreenState) (entry : String × String) (d d3 : Series)
    (h : fetch (tickerCode entry.2) .p1mo = some d)
    (hs : ¬ (d = [] ∨ d.length < 20)) (hn : newHigh d = true)
    (hv : volumeSurge d = true)
    (h3 : fetch (tickerCode entry.2) .p3mo = some d3)
    (h3s : d3 ≠ [] ∧ 60 ≤ d3.length)
    (hm : (rollingMeanQ 60 (d3.map Bar.c)).getLastD none = none) :
    processSymbol fetch eps st entry =
      { st with processed := st.processed + 1 } := by
  simp only [processSymbol, h, h3]
  rw [if_neg hs, if_neg (by simp [hn]), if_neg (by simp [hv]), if_pos h3s]
  simp only [hm]

theorem processSymbol_trend_below_ma (fetch : Fetch) (eps : EpsFn)
    (st : ScreenState) (entry : String × String) (d d3 : Series) (m : ℚ)
    (h : fetch (tickerCode entry.2) .p1mo = some d)
    (hs : ¬ (d = [] ∨ d.length < 20)) (hn : newHigh d = true)
    (hv : volumeSurge d = true)
    (h3 : fetch (tickerCode entry.2) .p3mo = some d3)
    (h3s : d3 ≠ [] ∧ 60 ≤ d3.length)
    (hm : (rollingMeanQ 60 (d3.map Bar.c)).getLastD none = some m)
    (hc : ¬ lastClose d3 > m) :
    processSymbol fetch eps st entry =
      { st with processed := st.processed + 1 } := by
  simp only [processSymbol, h, h3]
  rw [if_neg hs, if_neg (by simp [hn]), if_neg (by simp [hv]), if_pos h3s]
  simp only [hm]
  rw [if_neg hc]

theorem processSymbol_accept (fetch : Fetch) (eps : EpsFn)
    (st : ScreenState) (entry : String × String) (d d3 : Series) (m : ℚ)
    (h : fetch (tickerCode entry.2) .p1mo = some d)
    (hs : ¬ (d = [] ∨ d.length < 20)) (hn : newHigh d = true)
    (hv : volumeSurge d = true)
    (h3 : fetch (tickerCode entry.2) .p3mo = some d3)
    (h3s : d3 ≠ [] ∧ 60 ≤ d3.length)
    (hm : (rollingMeanQ 60 (d3.map Bar.c)).getLastD none = some m)
    (hc : lastClose d3 > m) :
    processSymbol fetch eps st entry =
      { st with
        results := st.results ++ [acceptedCandidate eps entry d d3]
        processed := st.processed + 1 } := by
  simp only [processSymbol, h, h3]
  rw [if_neg hs, if_neg (by simp [hn]), if_neg (by simp [hv]), if_pos h3s]
  simp only [hm]
  rw [if_pos hc]
  rfl

/-! Lemmas about the stable descending ranking sort. -/

theorem mem_insertByKey (a c : Candidate) (l : List Candidate) :
    a ∈ insertByKey c l ↔ a = c ∨ a ∈ l := by
  induction l with
  | nil => simp [insertByKey]
  | cons d ds ih =>
    simp only [insertByKey]
    split
    · simp only [List.mem_cons, ih]
      tauto
    · simp only [List.mem_cons]

theorem mem_sortByVolPct (a : Candidate) (l : List Candidate) :
    a ∈ sortByVolPct l ↔ a ∈ l := by
  induction l with
  | nil => simp [sortByVolPct]
  | cons x xs ih =>
    simp only [sortByVolPct, List.foldr_cons]
    rw [show List.foldr insertByKey [] xs = sortByVolPct xs from rfl] at *
    rw [mem_insertByKey]
    simp [ih]

theorem pairwise_insertByKey (c : Candidate) (l : List Candidate)
    (hl : l.Pairwise fun a b => b.volPct ≤ a.volPct) :
    (insertByKey c l).Pairwise fun a b => b.volPct ≤ a.volPct := by
  induction l with
  | nil => simp [insertByKey]
  | cons d ds ih =>
    rw [List.pairwise_cons] at hl
    simp only [insertByKey]
    split
    · rename_i hcd
      rw [List.pairwise_cons]
      constructor
      · intro b hb
        rw [mem_insertByKey] at hb
        rcases hb with hb | hb
        · rw [hb]; exact le_of_lt hcd
        · exact hl.1 b hb
      · exact ih hl.2
    · rename_i hcd
      push_neg at hcd
      rw [List.pairwise_cons]
      constructor
      · intro b hb
        simp only [List.mem_cons] at hb
        rcases hb with hb | hb
        · rw [hb]; exact hcd
        · exact le_trans (hl.1 b hb) hcd
      · exact List.pairwise_cons.mpr hl

theorem pairwise_sortByVolPct (l : List Candidate) :
    (sortByVolPct l).Pairwise fun a b => b.volPct ≤ a.volPct := by
  induction l with
  | nil => simp [sortByVolPct]
  | cons x xs ih =>
    simpa only [sortByVolPct, List.foldr_cons] using
      pairwise_insertByKey x (sortByVolPct xs) ih

theorem filter_insertByKey (c : Candidate) (l : List Candidate) (k : ℚ) :
    (insertByKey c l).filter (fun x => x.volPct = k) =
      if c.volPct = k then c :: l.filter (fun x => x.volPct = k)
      else l.filter (fun x => x.volPct = k) := by
  induction l with
  | nil =>
    by_cases hck : c.volPct = k
    · simp [insertByKey, List.filter_cons, hck]
    · simp [insertByKey, List.filter_cons, hck]
  | cons d ds ih =>
    simp only [insertByKey]
    split
    · rename_i hcd
      by_cases hck : c.volPct = k
      · have hdk : ¬ d.volPct = k := by
          intro hdk
          rw [hck] at hcd
          rw [hdk] at hcd
          exact lt_irrefl k hcd
        rw [if_pos hck]
        rw [List.filter_cons_of_neg (by simpa using hdk)]
        rw [ih, if_pos hck]
        rw [List.filter_cons_of_neg (by simpa using hdk)]
      · rw [List.filter_cons, List.filter_cons]
        rw [ih]
        simp [hck]
    · by_cases hck : c.volPct = k
      · rw [if_pos hck]
        rw [List.filter_cons_of_pos (by simpa using hck)]
      · rw [if_neg hck]
        rw [List.filter_cons_of_neg (by simpa using hck)]

theorem filter_sortByVolPct (l : List Candidate) (k : ℚ) :
    (sortByVolPct l).filter (fun x => x.volPct = k) =
      l.filter (fun x => x.volPct = k) := by
  induction l with
  | nil => simp [sortByVolPct]
  | cons x xs ih =>
    simp only [sortByVolPct, List.foldr_cons]
    rw [show List.foldr insertByKey [] xs = sortByVolPct xs from rfl]
    rw [filter_insertByKey]
    by_cases hxk : x.volPct = k
    · rw [if_pos hxk, ih, List.filter_cons_of_pos (by simpa using hxk)]
    · rw [if_neg hxk, ih, List.filter_cons_of_neg (by simpa using hxk)]

/-! An invariant of the collection loop: every candidate in the result list
was appended with its own fetched one-month data passing the fetch, length,
new-high and volume-surge stages. -/

/-- The property every appended candidate satisfies: its one-month fetch
succeeded with at least 20 bars, its latest close is at least 98 percent of
its trailing 20-bar high, and its volume surged. -/
def PassedCheapFilters (fetch : Fetch) (c : Candidate) : Prop :=
  ∃ d : Series, fetch (tickerCode c.symbol) .p1mo = some d ∧
    ¬ (d = [] ∨ d.length < 20) ∧
    lastClose d ≥ maxD (lastN 20 (d.map Bar.h)) * (98 / 100) ∧
    volumeSurge d = true

theorem processSymbol_results_cases (fetch : Fetch) (eps : EpsFn)
    (st : ScreenState) (entry : String × String) (c : Candidate)
    (hc : c ∈ (processSymbol fetch eps st entry).results) :
    c ∈ st.results ∨ PassedCheapFilters fetch c := by
  cases hfetch : fetch (tickerCode entry.2) Period.p1mo with
  | none =>
    rw [processSymbol_fetch_none fetch eps st entry hfetch] at hc
    exact Or.inl hc
  | some d =>
    by_cases hs : d = [] ∨ d.length < 20
    · rw [processSymbol_short fetch eps st entry d hfetch hs] at hc
      exact Or.inl hc
    · cases hnb : newHigh d with
      | false =>
        rw [processSymbol_newHigh_fail fetch eps st entry d hfetch hs hnb] at hc
        exact Or.inl hc
      | true =>
        cases hvb : volumeSurge d with
        | false =>
          rw [processSymbol_volume_fail fetch eps st entry d hfetch hs hnb hvb] at hc
          exact Or.inl hc
        | true =>
          cases h3 : fetch (tickerCode entry.2) Period.p3mo with
          | none =>
            rw [processSymbol_trend_fetch_none fetch eps st entry d
              hfetch hs hnb hvb h3] at hc
            exact Or.inl hc
          | some d3 =>
            by_cases h3s : d3 ≠ [] ∧ 60 ≤ d3.length
            · cases hm : (rollingMeanQ 60 (d3.map Bar.c)).getLastD none with
              | none =>
                rw [processSymbol_trend_ma_none fetch eps st entry d d3
                  hfetch hs hnb hvb h3 h3s hm] at hc
                exact Or.inl hc
              | some m =>
                by_cases hcm : lastClose d3 > m
                · rw [processSymbol_accept fetch eps st entry d d3 m
                    hfetch hs hnb hvb h3 h3s hm hcm] at hc
                  simp only [List.mem_append, List.mem_singleton] at hc
                  rcases hc with hc | hc
                  · exact Or.inl hc
                  · refine Or.inr ⟨d, ?_, hs, ?_, hvb⟩
                    · rw [hc]
                      exact hfetch
                    · have := hnb
                      simp only [newHigh, decide_eq_true_eq] at this
                      exact this
                · rw [processSymbol_trend_below_ma fetch eps st entry d d3 m
                    hfetch hs hnb hvb h3 h3s hm hcm] at hc
                  exact Or.inl hc
            · rw [processSymbol_trend_short fetch eps st entry d d3
                hfetch hs hnb hvb h3 h3s] at hc
              exact Or.inl hc

theorem collect_results_cases (fetch : Fetch) (eps : EpsFn) :
    ∀ (univ : List (String × String)) (st : ScreenState) (c : Candidate),
      c ∈ (List.foldl (processSymbol fetch eps) st univ).results →
        c ∈ st.results ∨ PassedCheapFilters fetch c := by
  intro univ
  induction univ with
  | nil =>
    intro st c hc
    exact Or.inl hc
  | cons e es ih =>
    intro st c hc
    rw [List.foldl_cons] at hc
    rcases ih (processSymbol fetch eps st e) c hc with h | h
    · exact processSymbol_results_cases fetch eps st e c h
    · exact Or.inr h

/-- C3: a candidate whose latest close is strictly below 98 percent of its
trailing 20-bar high never appears in the result list of a screening run,
whatever its volume, trend or other data: every symbol whose fetched
one-month series fails the new-high inequality is absent from the results. -/
theorem c3_new_high_reject_absent (fetch : Fetch) (eps : EpsFn)
    (univ : List (String × String)) (sym : String)
    (hfail : ∀ d : Series, fetch (tickerCode sym) Period.p1mo = some d →
      lastClose d < maxD (lastN 20 (d.map Bar.h)) * (98 / 100)) :
    ∀ c ∈ (screen_stocks_by_market fetch eps univ).results, c.symbol ≠ sym := by
  intro c hc heq
  have hc' : c ∈ (collectCandidates fetch eps univ).results := by
    have := hc
    simp only [screen_stocks_by_market] at this
    rw [mem_sortByVolPct] at this
    exact this
  rcases collect_results_cases fetch eps univ {} c hc' with h | h
  · simp [ScreenState.results] at h
  · rcases h with ⟨d, hd, _, hge, _⟩
    rw [heq] at hd
    exact absurd hge (not_le.mpr (hfail d hd))

/-- Concrete screening scenario for the C3 witness: one symbol whose series
passes the fetch but whose latest close sits below 98 percent of its 20-bar
high. -/
def c3bar : Bar := { o := 100, h := 100, l := 90, c := 90, v := 10 }

/-- The one-month series of the C3 witness symbol: 20 bars with high 100 and
close 90, so the latest close is below the new-high threshold 98. -/
def c3data : Series := List.replicate 20 c3bar

/-- The provider behaviour of the C3 witness run. -/
def c3fetch : Fetch := fun code p =>
  if code = "000002" ∧ p = Period.p1mo then some c3data else none

/-- The fundamentals behaviour of the C3 witness run. -/
def c3eps : EpsFn := fun _ => none

set_option maxRecDepth 8000 in
theorem c3_witness :
    (∀ d : Series, c3fetch (tickerCode "000002.KS") Period.p1mo = some d →
      lastClose d < maxD (lastN 20 (d.map Bar.h)) * (98 / 100)) ∧
    ∀ c ∈ (screen_stocks_by_market c3fetch c3eps
        [("B", "000002.KS")]).results, c.symbol ≠ "000002.KS" := by
  have hfail : ∀ d : Series, c3fetch (tickerCode "000002.KS") Period.p1mo = some d →
      lastClose d < maxD (lastN 20 (d.map Bar.h)) * (98 / 100) := by
    intro d hd
    have hred : c3fetch (tickerCode "000002.KS") Period.p1mo = some c3data := by decide
    rw [hred] at hd
    injection hd with hdd
    rw [← hdd]
    show lastClose c3data < maxD (lastN 20 (c3data.map Bar.h)) * (98 / 100)
    have h1 : lastClose c3data = 90 := by decide
    have h2 : maxD (lastN 20 (c3data.map Bar.h)) = 100 := by decide
    rw [h1, h2]
    norm_num
  exact ⟨hfail, c3_new_high_reject_absent c3fetch c3eps [("B", "000002.KS")]
    "000002.KS" hfail⟩

/-- C2 counterexample: the loaders do not return the unavailable sentinel on
a single-bar frame; a one-row provider response (fewer than 2 bars) is
returned as a series, contradicting the fewer-than-2-bars clause. -/
theorem c2_counterexample :
    ([({ o := 1, h := 1, l := 1, c := 1, v := 1 } : Bar)].length < 2) ∧
    load_data (Except.ok [({ o := 1, h := 1, l := 1, c := 1, v := 1 } : Bar)]) ≠
      none := by
  constructor
  · decide
  · simp [load_data]

/-- C2 amended: each loader returns the unavailable sentinel exactly when
the provider call raised or returned an empty frame (or None, for the
domestic loader); any nonempty frame, including a single-bar frame, is
returned as a normalized series, with the domestic loader renaming columns
and dropping the change-percent column.  No provider exception escapes:
both loaders are total functions of the provider outcome. -/
theorem c2_loader_none_iff :
    (∀ r : Except Unit (List Bar),
      load_data r = none ↔ r = Except.error () ∨ r = Except.ok []) ∧
    (∀ r : Except Unit (Option (List KrxBar)),
      load_korean_stock_data r = none ↔
        r = Except.error () ∨ r = Except.ok none ∨ r = Except.ok (some [])) ∧
    (∀ df : List KrxBar, df ≠ [] →
      load_korean_stock_data (Except.ok (some df)) = some (df.map krxToBar)) := by
  refine ⟨?_, ?_, ?_⟩
  · intro r
    match r with
    | Except.error () => simp [load_data]
    | Except.ok data =>
      cases data with
      | nil => simp [load_data]
      | cons b bs => simp [load_data]
  · intro r
    match r with
    | Except.error () => simp [load_korean_stock_data]
    | Except.ok none => simp [load_korean_stock_data]
    | Except.ok (some df) =>
      cases df with
      | nil => simp [load_korean_stock_data]
      | cons b bs => simp [load_korean_stock_data]
  · intro df hdf
    cases df with
    | nil => exact absurd rfl hdf
    | cons b bs => simp [load_korean_stock_data]

/-- C2 witness: the amended characterization applied to a concrete one-bar
domestic frame. -/
theorem c2_witness :
    (([({ o := 2, h := 3, l := 1, c := 2, v := 5, chg := 1 } : KrxBar)] :
        List KrxBar) ≠ []) ∧
    load_korean_stock_data
        (Except.ok (some [({ o := 2, h := 3, l := 1, c := 2, v := 5, chg := 1 } :
          KrxBar)])) =
      some [krxToBar { o := 2, h := 3, l := 1, c := 2, v := 5, chg := 1 }] := by
  constructor
  · simp
  · exact c2_loader_none_iff.2.2
      [({ o := 2, h := 3, l := 1, c := 2, v := 5, chg := 1 } : KrxBar)] (by simp)

/-! C1: the three-symbol screening scenario. -/

/-- C1 amended: in a three-symbol universe where the first symbol's fetch
fails, the second passes the fetch but fails the new-high filter, and the
third survives every filter, the run returns exactly the one candidate for
the third symbol with an error count of 1 - but the reported processed
count is 2, not 3: a symbol whose fetch fails is counted as an error
without being counted as processed. -/
theorem c1_screen_counts (fetch : Fetch) (eps : EpsFn)
    (na nb nc sa sb sc : String) (dB dC dC3 : Series) (m : ℚ)
    (hA : fetch (tickerCode sa) Period.p1mo = none)
    (hB : fetch (tickerCode sb) Period.p1mo = some dB)
    (hBlen : ¬ (dB = [] ∨ dB.length < 20))
    (hBnh : newHigh dB = false)
    (hC : fetch (tickerCode sc) Period.p1mo = some dC)
    (hClen : ¬ (dC = [] ∨ dC.length < 20))
    (hCnh : newHigh dC = true)
    (hCvs : volumeSurge dC = true)
    (hC3 : fetch (tickerCode sc) Period.p3mo = some dC3)
    (hC3len : dC3 ≠ [] ∧ 60 ≤ dC3.length)
    (hm : (rollingMeanQ 60 (dC3.map Bar.c)).getLastD none = some m)
    (hcm : lastClose dC3 > m) :
    (screen_stocks_by_market fetch eps
        [(na, sa), (nb, sb), (nc, sc)]).results.map Candidate.symbol = [sc] ∧
    (screen_stocks_by_market fetch eps
        [(na, sa), (nb, sb), (nc, sc)]).processed = 2 ∧
    (screen_stocks_by_market fetch eps
        [(na, sa), (nb, sb), (nc, sc)]).errors = 1 := by
  have hrun : screen_stocks_by_market fetch eps [(na, sa), (nb, sb), (nc, sc)] =
      { results := sortByVolPct ([] ++ [acceptedCandidate eps (nc, sc) dC dC3])
        processed := 0 + 1 + 1
        errors := 0 + 1 } := by
    simp only [screen_stocks_by_market, collectCandidates, List.foldl_cons,
      List.foldl_nil]
    rw [processSymbol_fetch_none fetch eps {} (na, sa) hA]
    rw [processSymbol_newHigh_fail fetch eps _ (nb, sb) dB hB hBlen hBnh]
    rw [processSymbol_accept fetch eps _ (nc, sc) dC dC3 m hC hClen hCnh hCvs
      hC3 hC3len hm hcm]
  rw [hrun]
  refine ⟨?_, rfl, rfl⟩
  simp [sortByVolPct, insertByKey, acceptedCandidate]

/-- Bar of the C1 scenario's second symbol: high 100 and close 90, failing
the 98 percent new-high threshold. -/
def c1barB : Bar := { o := 100, h := 100, l := 90, c := 90, v := 10 }

/-- One-month series of the C1 scenario's second symbol. -/
def c1dB : Series := List.replicate 20 c1barB

/-- Early bar of the C1 scenario's third symbol: volume 10. -/
def c1barC1 : Bar := { o := 100, h := 100, l := 100, c := 100, v := 10 }

/-- Late bar of the C1 scenario's third symbol: volume 100, giving the
volume surge. -/
def c1barC2 : Bar := { o := 100, h := 100, l := 100, c := 100, v := 100 }

/-- One-month series of the C1 scenario's third symbol: 15 low-volume bars
then 5 high-volume bars at the 20-bar high. -/
def c1dC : Series := List.replicate 15 c1barC1 ++ List.replicate 5 c1barC2

/-- Body bar of the third symbol's three-month series: close 100. -/
def c1barD : Bar := { o := 100, h := 100, l := 100, c := 100, v := 10 }

/-- Final bar of the third symbol's three-month series: close 160, above
the 60-day average. -/
def c1barE : Bar := { o := 160, h := 160, l := 160, c := 160, v := 10 }

/-- Three-month series of the C1 scenario's third symbol. -/
def c1dC3 : Series := List.replicate 59 c1barD ++ [c1barE]

/-- Provider behaviour of the C1 scenario: the first symbol always fails. -/
def c1fetch : Fetch := fun code p =>
  if code = "000002" ∧ p = Period.p1mo then some c1dB
  else if code = "000003" ∧ p = Period.p1mo then some c1dC
  else if code = "000003" ∧ p = Period.p3mo then some c1dC3
  else none

/-- Fundamentals behaviour of the C1 scenario. -/
def c1eps : EpsFn := fun _ => none

/-- Universe of the C1 scenario. -/
def c1univ : List (String × String) :=
  [("A", "000001.KS"), ("B", "000002.KS"), ("C", "000003.KS")]

theorem c1dB_nh : newHigh c1dB = false := by
  have h1 : lastClose c1dB = 90 := by decide
  have h2 : maxD (lastN 20 (c1dB.map Bar.h)) = 100 := by decide
  simp only [newHigh, decide_eq_false_iff_not]
  rw [h1, h2]
  norm_num

theorem c1dC_nh : newHigh c1dC = true := by
  have h1 : lastClose c1dC = 100 := by decide
  have h2 : maxD (lastN 20 (c1dC.map Bar.h)) = 100 := by decide
  simp only [newHigh, decide_eq_true_eq]
  rw [h1, h2]
  norm_num

theorem c1dC_recent : mean (lastN 5 (c1dC.map Bar.v)) = 100 := by
  rw [show lastN 5 (c1dC.map Bar.v) = List.replicate 5 (100 : ℚ) from by decide]
  rw [mean, List.sum_replicate]
  simp [nsmul_eq_mul]

theorem c1dC_prev : mean (sliceNeg 15 5 (c1dC.map Bar.v)) = 10 := by
  rw [show sliceNeg 15 5 (c1dC.map Bar.v) = List.replicate 10 (10 : ℚ) from by
    decide]
  rw [mean, List.sum_replicate]
  simp [nsmul_eq_mul]

theorem c1dC_vs : volumeSurge c1dC = true := by
  simp only [volumeSurge, decide_eq_true_eq]
  rw [c1dC_recent, c1dC_prev]
  norm_num

theorem c1dC3_ma : (rollingMeanQ 60 (c1dC3.map Bar.c)).getLastD none =
    some 101 := by
  rw [rollingMeanQ_getLastD 60 (c1dC3.map Bar.c) (by norm_num)
    (by decide : 60 ≤ (c1dC3.map Bar.c).length)]
  congr 1
  rw [show lastN 60 (c1dC3.map Bar.c) = List.replicate 59 (100 : ℚ) ++ [160]
    from by decide]
  rw [List.sum_append, List.sum_replicate]
  simp [nsmul_eq_mul]
  norm_num

theorem c1dC3_gt : lastClose c1dC3 > 101 := by
  rw [show lastClose c1dC3 = 160 from by decide]
  norm_num

/-- C1 counterexample: in the concrete three-symbol scenario of the claim
the run reports a processed count of 2, not 3: the fetch-failed symbol is
only counted as an error, so the claimed conjunction fails. -/
theorem c1_counterexample :
    ¬ ((screen_stocks_by_market c1fetch c1eps c1univ).results.map
          Candidate.symbol = ["000003.KS"] ∧
       (screen_stocks_by_market c1fetch c1eps c1univ).processed = 3 ∧
       (screen_stocks_by_market c1fetch c1eps c1univ).errors = 1) := by
  intro h
  have hp : (screen_stocks_by_market c1fetch c1eps c1univ).processed = 2 := by
    simp only [screen_stocks_by_market, collectCandidates, c1univ,
      List.foldl_cons, List.foldl_nil]
    rw [processSymbol_fetch_none c1fetch c1eps {} ("A", "000001.KS")
      (by decide)]
    rw [processSymbol_newHigh_fail c1fetch c1eps _ ("B", "000002.KS") c1dB
      (by decide) (by decide) c1dB_nh]
    rw [processSymbol_accept c1fetch c1eps _ ("C", "000003.KS") c1dC c1dC3 101
      (by decide) (by decide) c1dC_nh c1dC_vs (by decide) (by decide)
      c1dC3_ma c1dC3_gt]
  rw [hp] at h
  exact absurd h.2.1 (by norm_num)

/-- C1 witness: the amended count theorem applied to the concrete
three-symbol scenario. -/
theorem c1_witness :
    c1fetch (tickerCode "000001.KS") Period.p1mo = none ∧
    newHigh c1dB = false ∧ newHigh c1dC = true ∧ volumeSurge c1dC = true ∧
    ((screen_stocks_by_market c1fetch c1eps
        [("A", "000001.KS"), ("B", "000002.KS"), ("C", "000003.KS")]).results.map
          Candidate.symbol = ["000003.KS"] ∧
     (screen_stocks_by_market c1fetch c1eps
        [("A", "000001.KS"), ("B", "000002.KS"), ("C", "000003.KS")]).processed
          = 2 ∧
     (screen_stocks_by_market c1fetch c1eps
        [("A", "000001.KS"), ("B", "000002.KS"), ("C", "000003.KS")]).errors
          = 1) :=
  ⟨by decide, c1dB_nh, c1dC_nh, c1dC_vs,
    c1_screen_counts c1fetch c1eps "A" "B" "C" "000001.KS" "000002.KS"
      "000003.KS" c1dB c1dC c1dC3 101 (by decide) (by decide) (by decide)
      c1dB_nh (by decide) (by decide) c1dC_nh c1dC_vs (by decide) (by decide)
      c1dC3_ma c1dC3_gt⟩

/-! C4: the lagging-span column. -/

/-- C4: the Ichimoku lagging span is the close column shifted backward by
26 positions: entry i holds close[i+26] whenever that index exists, and
every entry within 26 positions of the end of the frame is null. -/
theorem c4_lagging_shift (data : Series) (i : ℕ) :
    (i + 26 < data.length →
      ((calculate_indicators data).2.ichiLagging)[i]? =
        some (some ((closesR data).getD (i + 26) 0))) ∧
    (data.length ≤ i + 26 → i < data.length →
      ((calculate_indicators data).2.ichiLagging)[i]? = some none) := by
  have hcol : (calculate_indicators data).2.ichiLagging =
      shiftNeg 26 (closesR data) := rfl
  have hlen : (closesR data).length = data.length := by simp [closesR]
  constructor
  · intro h
    rw [hcol]
    exact shiftNeg_getElem?_lt 26 i (closesR data) 0 (by omega)
  · intro h1 h2
    rw [hcol]
    exact shiftNeg_getElem?_ge 26 i (closesR data) (by omega) (by omega)

/-- Concrete 27-bar series for the C4 witness. -/
def c4data : Series :=
  List.replicate 27 ({ o := 7, h := 9, l := 5, c := 8, v := 3 } : Bar)

/-- C4 witness: the shift theorem applied to a concrete 27-bar series at a
valid index and at an index within 26 of the end. -/
theorem c4_witness :
    (0 + 26 < c4data.length ∧
      ((calculate_indicators c4data).2.ichiLagging)[0]? =
        some (some ((closesR c4data).getD 26 0))) ∧
    (c4data.length ≤ 1 + 26 ∧ 1 < c4data.length ∧
      ((calculate_indicators c4data).2.ichiLagging)[1]? = some none) :=
  ⟨⟨by decide, (c4_lagging_shift c4data 0).1 (by decide)⟩,
    ⟨by decide, by decide, (c4_lagging_shift c4data 1).2 (by decide) (by decide)⟩⟩

/-! C7: the ranking order of the returned list. -/

/-- C7: the result list of a screening run is sorted descending by the
volume-surge percentage, and candidates with equal keys keep their
collection (universe-iteration) order: filtering the ranked list to any one
key value gives exactly the filtered collection-order list. -/
theorem c7_ranking_sorted_stable (fetch : Fetch) (eps : EpsFn)
    (univ : List (String × String)) :
    ((screen_stocks_by_market fetch eps univ).results).Pairwise
      (fun a b => b.volPct ≤ a.volPct) ∧
    ∀ k : ℚ,
      ((screen_stocks_by_market fetch eps univ).results).filter
          (fun c => c.volPct = k) =
        ((collectCandidates fetch eps univ).results).filter
          (fun c => c.volPct = k) := by
  constructor
  · simp only [screen_stocks_by_market]
    exact pairwise_sortByVolPct _
  · intro k
    simp only [screen_stocks_by_market]
    exact filter_sortByVolPct _ k

/-! C9: purity of the indicator engine. -/

/-- C9: calculate_indicators is deterministic and side-effect free: the
same input always produces the identical frame, the caller's series is
unchanged by the call, and the returned frame carries the input rows
verbatim (the copy, not a mutated alias). -/
theorem c9_pure (data : Series) :
    calculate_indicators data = calculate_indicators data ∧
    (calculate_indicators data).1 = data ∧
    (calculate_indicators data).2.bars = data :=
  ⟨rfl, rfl, rfl⟩

/-! C8: the Bollinger band columns. -/

/-- C8: wherever the Bollinger columns are non-null (every index from 17
on), the middle band is the 18-period simple moving average of the close -
the sum of the trailing full 18-element window divided by 18 - and the
bands are symmetric about it: each lies exactly two 18-period rolling
standard deviations away, so upper minus middle equals middle minus
lower. -/
theorem c8_bollinger (data : Series) (i : ℕ) (h17 : 17 ≤ i)
    (hi : i < data.length) :
    (window 18 i (closesR data)).length = 18 ∧
    ∃ u m lo : ℝ,
      ((calculate_indicators data).2.bbUpper)[i]? = some (some u) ∧
      ((calculate_indicators data).2.bbMiddle)[i]? = some (some m) ∧
      ((calculate_indicators data).2.bbLower)[i]? = some (some lo) ∧
      m = (window 18 i (closesR data)).sum / 18 ∧
      u = m + 2 * Real.sqrt (popVar 18 (window 18 i (closesR data))) ∧
      lo = m - 2 * Real.sqrt (popVar 18 (window 18 i (closesR data))) ∧
      u - m = m - lo := by
  have hlen : (closesR data).length = data.length := by simp [closesR]
  have hi' : i < (closesR data).length := by omega
  have hup : (calculate_indicators data).2.bbUpper =
      rollingApply 18 (fun l => l.sum / 18 + 2 * Real.sqrt (popVar 18 l))
        (closesR data) := rfl
  have hmid : (calculate_indicators data).2.bbMiddle =
      rollingApply 18 (fun l => l.sum / ((18 : ℕ) : ℝ)) (closesR data) := rfl
  have hlo : (calculate_indicators data).2.bbLower =
      rollingApply 18 (fun l => l.sum / 18 - 2 * Real.sqrt (popVar 18 l))
        (closesR data) := rfl
  have hcond : ¬ (i + 1 < 18) := by omega
  refine ⟨length_window 18 i (closesR data) (by omega) hi', ?_⟩
  refine ⟨(window 18 i (closesR data)).sum / 18 +
      2 * Real.sqrt (popVar 18 (window 18 i (closesR data))),
    (window 18 i (closesR data)).sum / 18,
    (window 18 i (closesR data)).sum / 18 -
      2 * Real.sqrt (popVar 18 (window 18 i (closesR data))),
    ?_, ?_, ?_, rfl, rfl, rfl, by ring⟩
  · rw [hup, getElem?_rollingApply 18 _ (closesR data) i hi', if_neg hcond]
  · rw [hmid, getElem?_rollingApply 18 _ (closesR data) i hi', if_neg hcond]
    norm_num
  · rw [hlo, getElem?_rollingApply 18 _ (closesR data) i hi', if_neg hcond]

/-- Concrete 18-bar constant series for the C8 witness. -/
def c8data : Series :=
  List.replicate 18 ({ o := 2, h := 2, l := 2, c := 2, v := 1 } : Bar)

/-- C8 witness: the Bollinger symmetry theorem applied at the first
non-null index of a concrete 18-bar series. -/
theorem c8_witness :
    17 ≤ 17 ∧ 17 < c8data.length ∧
    ((window 18 17 (closesR c8data)).length = 18 ∧
      ∃ u m lo : ℝ,
        ((calculate_indicators c8data).2.bbUpper)[17]? = some (some u) ∧
        ((calculate_indicators c8data).2.bbMiddle)[17]? = some (some m) ∧
        ((calculate_indicators c8data).2.bbLower)[17]? = some (some lo) ∧
        m = (window 18 17 (closesR c8data)).sum / 18 ∧
        u = m + 2 * Real.sqrt (popVar 18 (window 18 17 (closesR c8data))) ∧
        lo = m - 2 * Real.sqrt (popVar 18 (window 18 17 (closesR c8data))) ∧
        u - m = m - lo) :=
  ⟨by decide, by decide, c8_bollinger c8data 17 (by decide) (by decide)⟩

/-! C5: the volume-surge filter. -/

/-- Statement of the volume-surge condition in the words of the spec: the
arithmetic mean volume of the most recent 5 bars exceeds 1.2 times the
arithmetic mean volume of the 10 bars immediately preceding those 5 (the
last 10 elements of the volume column with its final 5 bars removed). -/
def volumeSurgeSpec (d : Series) : Prop :=
  mean (lastN 5 (d.map Bar.v)) >
    (6 / 5) * mean (lastN 10 ((d.map Bar.v).take ((d.map Bar.v).length - 5)))

/-- C5: for any series long enough to reach the filter (at least 20 bars),
the code's volume filter condition over the slices [-5:] and [-15:-5]
holds exactly when the spec's condition over the two non-overlapping
trailing windows holds; and a candidate reaching this filter with the
condition false is rejected with only its processed count incremented. -/
theorem c5_volume_filter (d : Series) (h20 : 20 ≤ d.length) :
    (volumeSurge d = true ↔ volumeSurgeSpec d) ∧
    ∀ (fetch : Fetch) (eps : EpsFn) (st : ScreenState) (name sym : String),
      fetch (tickerCode sym) Period.p1mo = some d →
      ¬ (d = [] ∨ d.length < 20) →
      newHigh d = true → volumeSurge d = false →
      processSymbol fetch eps st (name, sym) =
        { st with processed := st.processed + 1 } := by
  constructor
  · have hslice : sliceNeg 15 5 (d.map Bar.v) =
        lastN 10 ((d.map Bar.v).take ((d.map Bar.v).length - 5)) :=
      sliceNeg_eq_lastN_dropLast (d.map Bar.v) (by simpa using h20)
    simp only [volumeSurge, volumeSurgeSpec, decide_eq_true_eq, hslice]
    constructor
    · intro h
      rw [mul_comm]
      exact h
    · intro h
      rw [mul_comm] at h
      exact h
  · intro fetch eps st name sym h1 hlen hnh hvs
    exact processSymbol_volume_fail fetch eps st (name, sym) d h1 hlen hnh hvs

/-- Concrete flat series for the C5 witness: at its 20-bar high but with no
volume increase. -/
def c5d : Series :=
  List.replicate 20 ({ o := 100, h := 100, l := 100, c := 100, v := 10 } : Bar)

/-- Provider behaviour of the C5 witness run. -/
def c5fetch : Fetch := fun code p =>
  if code = "000002" ∧ p = Period.p1mo then some c5d else none

/-- Fundamentals behaviour of the C5 witness run. -/
def c5eps : EpsFn := fun _ => none

theorem c5d_nh : newHigh c5d = true := by
  have h1 : lastClose c5d = 100 := by decide
  have h2 : maxD (lastN 20 (c5d.map Bar.h)) = 100 := by decide
  simp only [newHigh, decide_eq_true_eq]
  rw [h1, h2]
  norm_num

theorem c5d_vs_false : volumeSurge c5d = false := by
  have h1 : lastN 5 (c5d.map Bar.v) = List.replicate 5 (10 : ℚ) := by decide
  have h2 : sliceNeg 15 5 (c5d.map Bar.v) = List.replicate 10 (10 : ℚ) := by
    decide
  simp only [volumeSurge, decide_eq_false_iff_not, h1, h2]
  rw [mean, mean, List.sum_replicate, List.sum_replicate]
  simp [nsmul_eq_mul]
  norm_num

/-- C5 witness: the filter characterization and the rejection behaviour at
a concrete 20-bar series with flat volume. -/
theorem c5_witness :
    20 ≤ c5d.length ∧
    (volumeSurge c5d = true ↔ volumeSurgeSpec c5d) ∧
    volumeSurge c5d = false ∧
    processSymbol c5fetch c5eps {} ("B", "000002.KS") =
      { ({} : ScreenState) with
        processed := ({} : ScreenState).processed + 1 } :=
  ⟨by decide, (c5_volume_filter c5d (by decide)).1, c5d_vs_false,
    (c5_volume_filter c5d (by decide)).2 c5fetch c5eps {} "B" "000002.KS"
      (by decide) (by decide) c5d_nh c5d_vs_false⟩

/-! C6: the trend filter. -/

/-- C6: for a candidate reaching the trend stage (cheap filters passed and
a nonempty three-month fetch of at least 60 bars), the latest value of the
rolling 60-period close average is the mean of the last 60 closes, the
candidate is admitted - appended to the results - exactly on a latest close
strictly above that mean, and otherwise the state only has its processed
count incremented. -/
theorem c6_trend_filter (fetch : Fetch) (eps : EpsFn) (st : ScreenState)
    (name sym : String) (d d3 : Series)
    (h1 : fetch (tickerCode sym) Period.p1mo = some d)
    (hlen : ¬ (d = [] ∨ d.length < 20))
    (hnh : newHigh d = true) (hvs : volumeSurge d = true)
    (h3 : fetch (tickerCode sym) Period.p3mo = some d3)
    (h3ne : d3 ≠ []) (h60 : 60 ≤ d3.length) :
    (rollingMeanQ 60 (d3.map Bar.c)).getLastD none =
      some (mean (lastN 60 (d3.map Bar.c))) ∧
    (lastClose d3 > mean (lastN 60 (d3.map Bar.c)) →
      (processSymbol fetch eps st (name, sym)).results =
        st.results ++ [acceptedCandidate eps (name, sym) d d3]) ∧
    (¬ lastClose d3 > mean (lastN 60 (d3.map Bar.c)) →
      processSymbol fetch eps st (name, sym) =
        { st with processed := st.processed + 1 }) := by
  have h60' : 60 ≤ (d3.map Bar.c).length := by simpa using h60
  have hma : (rollingMeanQ 60 (d3.map Bar.c)).getLastD none =
      some (mean (lastN 60 (d3.map Bar.c))) := by
    rw [rollingMeanQ_getLastD 60 (d3.map Bar.c) (by norm_num) h60']
    rw [lastN_sum_div_eq_mean 60 (d3.map Bar.c) h60']
  refine ⟨hma, ?_, ?_⟩
  · intro hgt
    rw [processSymbol_accept fetch eps st (name, sym) d d3
      (mean (lastN 60 (d3.map Bar.c))) h1 hlen hnh hvs h3 ⟨h3ne, h60⟩ hma hgt]
  · intro hng
    exact processSymbol_trend_below_ma fetch eps st (name, sym) d d3
      (mean (lastN 60 (d3.map Bar.c))) h1 hlen hnh hvs h3 ⟨h3ne, h60⟩ hma hng

/-- C6 witness: the trend-filter theorem applied to the concrete passing
scenario of the C1 data (third symbol). -/
theorem c6_witness :
    c1fetch (tickerCode "000003.KS") Period.p1mo = some c1dC ∧
    60 ≤ c1dC3.length ∧
    ((rollingMeanQ 60 (c1dC3.map Bar.c)).getLastD none =
        some (mean (lastN 60 (c1dC3.map Bar.c))) ∧
      (lastClose c1dC3 > mean (lastN 60 (c1dC3.map Bar.c)) →
        (processSymbol c1fetch c1eps {} ("C", "000003.KS")).results =
          ({} : ScreenState).results ++
            [acceptedCandidate c1eps ("C", "000003.KS") c1dC c1dC3]) ∧
      (¬ lastClose c1dC3 > mean (lastN 60 (c1dC3.map Bar.c)) →
        processSymbol c1fetch c1eps {} ("C", "000003.KS") =
          { ({} : ScreenState) with
            processed := ({} : ScreenState).processed + 1 })) :=
  ⟨by decide, by decide,
    c6_trend_filter c1fetch c1eps {} "C" "000003.KS" c1dC c1dC3 (by decide)
      (by decide) c1dC_nh c1dC_vs (by decide) (by decide) (by decide)⟩

/-! C10: the silent exclusion at the trend stage. -/

/-- C10: a candidate that passes the new-high and volume-surge filters but
whose three-month re-fetch fails, returns fewer than 60 bars, or has a null
latest 60-period average is dropped silently: the loop state keeps its
results and error counter and only the processed counter is incremented. -/
theorem c10_silent_trend_exclusion (fetch : Fetch) (eps : EpsFn)
    (st : ScreenState) (name sym : String) (d : Series)
    (h1 : fetch (tickerCode sym) Period.p1mo = some d)
    (hlen : ¬ (d = [] ∨ d.length < 20))
    (hnh : newHigh d = true) (hvs : volumeSurge d = true)
    (hfail : fetch (tickerCode sym) Period.p3mo = none ∨
      ∃ d3 : Series, fetch (tickerCode sym) Period.p3mo = some d3 ∧
        (d3 = [] ∨ d3.length < 60 ∨
          (rollingMeanQ 60 (d3.map Bar.c)).getLastD none = none)) :
    processSymbol fetch eps st (name, sym) =
      { st with processed := st.processed + 1 } := by
  rcases hfail with h3 | ⟨d3, h3, hbad⟩
  · exact processSymbol_trend_fetch_none fetch eps st (name, sym) d
      h1 hlen hnh hvs h3
  · by_cases h3s : d3 ≠ [] ∧ 60 ≤ d3.length
    · rcases hbad with hb | hb | hb
      · exact absurd hb h3s.1
      · omega
      · exact processSymbol_trend_ma_none fetch eps st (name, sym) d d3
          h1 hlen hnh hvs h3 h3s hb
    · exact processSymbol_trend_short fetch eps st (name, sym) d d3
        h1 hlen hnh hvs h3 h3s

/-- Provider behaviour of the C10 witness run: the cheap window passes
every filter but the three-month re-fetch fails. -/
def c10fetch : Fetch := fun code p =>
  if code = "000003" ∧ p = Period.p1mo then some c1dC else none

/-- C10 witness: the silent-exclusion theorem at a concrete run whose
three-month fetch returns the unavailable sentinel. -/
theorem c10_witness :
    c10fetch (tickerCode "000003.KS") Period.p1mo = some c1dC ∧
    c10fetch (tickerCode "000003.KS") Period.p3mo = none ∧
    processSymbol c10fetch c1eps {} ("C", "000003.KS") =
      { ({} : ScreenState) with
        processed := ({} : ScreenState).processed + 1 } :=
  ⟨by decide, by decide,
    c10_silent_trend_exclusion c10fetch c1eps {} "C" "000003.KS" c1dC
      (by decide) (by decide) c1dC_nh c1dC_vs (Or.inl (by decide))⟩

end Invest
